import Mathlib

/-!
Shallow embedding of the zoomsi screen-recorder and editor (src/recorder.py,
src/editor.py).  Python floats are modelled as rationals, machine integers as
Int/Nat.  Each definition mirrors one Python function.
-/

namespace Zoomsi

/-- Python `int(q)` on a float: truncation toward zero. -/
def pyint (q : ℚ) : ℤ := if 0 ≤ q then ⌊q⌋ else ⌈q⌉

/-- Configuration constant `SMOOTHING = 0.08` from editor.py. -/
def SMOOTHING : ℚ := 8/100

/-- Configuration constant `ZOOM_LEVEL = 2.0` from editor.py. -/
def ZOOM_LEVEL : ℚ := 2

/-- Configuration constant `ZOOM_DURATION = 2.5` from editor.py. -/
def ZOOM_DURATION : ℚ := 5/2

/-- Configuration constant `AI_CLICK_COOLDOWN = ZOOM_DURATION` from editor.py. -/
def AI_CLICK_COOLDOWN : ℚ := ZOOM_DURATION

/-- State of the virtual camera (`Camera.__init__` fields in editor.py). -/
structure CameraState where
  screen_width : ℚ
  screen_height : ℚ
  x : ℚ
  y : ℚ
  zoom : ℚ
  target_x : ℚ
  target_y : ℚ
  target_zoom : ℚ

/-- Model of `Camera.__init__(screen_width, screen_height)` from editor.py. -/
def Camera.init (screen_width screen_height : ℚ) : CameraState :=
  { screen_width := screen_width
    screen_height := screen_height
    x := screen_width / 2
    y := screen_height / 2
    zoom := 1
    target_x := screen_width / 2
    target_y := screen_height / 2
    target_zoom := 1 }

/-- Model of `Camera.update` from editor.py: exponential smoothing toward the target. -/
def Camera.update (c : CameraState) : CameraState :=
  { c with
    x := c.x + (c.target_x - c.x) * SMOOTHING
    y := c.y + (c.target_y - c.y) * SMOOTHING
    zoom := c.zoom + (c.target_zoom - c.zoom) * SMOOTHING }

/-- Model of `Camera.set_target` from editor.py: clamps the requested target. -/
def Camera.set_target (c : CameraState) (tx ty tz : ℚ) : CameraState :=
  { c with
    target_x := max 0 (min tx c.screen_width)
    target_y := max 0 (min ty c.screen_height)
    target_zoom := max 1 tz }

/-- A video frame: numpy array of shape (h, w) with pixel values. -/
structure Frame where
  h : ℕ
  w : ℕ
  px : ℕ → ℕ → ℕ

theorem Frame.ext_px {f g : Frame} (hh : f.h = g.h) (hw : f.w = g.w)
    (hp : f.px = g.px) : f = g := by
  cases f; cases g; simp_all

/-- Model of `cv2.resize(src, (tw, th))`: resampling on the pixel grid; at unit scale
every interpolation filter (including LANCZOS4) reproduces the source. -/
def Frame.resize (src : Frame) (tw th : ℕ) : Frame :=
  { h := th, w := tw, px := fun i j => src.px (i * src.h / th) (j * src.w / tw) }

/-- The quantity `crop_w = int(w / self.zoom)` in `Camera.process_frame`. -/
def Camera.crop_w (c : CameraState) (w : ℕ) : ℤ := pyint ((w : ℚ) / c.zoom)

/-- The quantity `crop_h = int(h / self.zoom)` in `Camera.process_frame`. -/
def Camera.crop_h (c : CameraState) (h : ℕ) : ℤ := pyint ((h : ℚ) / c.zoom)

/-- The quantity `crop_x = max(0, min(int(self.x - crop_w / 2), w - crop_w))` in
`Camera.process_frame` (raw origin then the in-frame clamp). -/
def Camera.crop_x (c : CameraState) (w : ℕ) : ℤ :=
  max 0 (min (pyint (c.x - ((Camera.crop_w c w : ℤ) : ℚ) / 2)) ((w : ℤ) - Camera.crop_w c w))

/-- The quantity `crop_y = max(0, min(int(self.y - crop_h / 2), h - crop_h))` in
`Camera.process_frame`. -/
def Camera.crop_y (c : CameraState) (h : ℕ) : ℤ :=
  max 0 (min (pyint (c.y - ((Camera.crop_h c h : ℤ) : ℚ) / 2)) ((h : ℤ) - Camera.crop_h c h))

/-- Model of `Camera.process_frame` from editor.py: crop (numpy slice semantics, with
end indices clipped to the frame) then resize back to the original size; a
zero-size crop returns the original frame unchanged. -/
def Camera.process_frame (c : CameraState) (f : Frame) : Frame :=
  let cw := Camera.crop_w c f.w
  let ch := Camera.crop_h c f.h
  let cx := Camera.crop_x c f.w
  let cy := Camera.crop_y c f.h
  let rows : ℕ := (min (cy + ch) (f.h : ℤ) - cy).toNat
  let cols : ℕ := (min (cx + cw) (f.w : ℤ) - cx).toNat
  if rows * cols = 0 then f
  else Frame.resize { h := rows, w := cols, px := fun i j => f.px (cy.toNat + i) (cx.toNat + j) } f.w f.h

theorem update_target_x (c : CameraState) : (Camera.update c).target_x = c.target_x := rfl

theorem update_target_y (c : CameraState) : (Camera.update c).target_y = c.target_y := rfl

theorem update_target_zoom (c : CameraState) : (Camera.update c).target_zoom = c.target_zoom := rfl

theorem update_iterate_targets (c : CameraState) (n : ℕ) :
    (Camera.update^[n] c).target_x = c.target_x ∧
    (Camera.update^[n] c).target_y = c.target_y ∧
    (Camera.update^[n] c).target_zoom = c.target_zoom := by
  induction n with
  | zero => simp
  | succ n ih =>
    rw [Function.iterate_succ_apply', update_target_x, update_target_y, update_target_zoom]
    exact ih

/-- Claim C3: with a fixed target, after n consecutive `update()` calls the
residual error in the camera x, y and zoom each equals the initial error
multiplied by (1 − α)ⁿ, where α = SMOOTHING = 0.08 is applied once per call. -/
theorem camera_update_geometric_convergence (c : CameraState) (n : ℕ) :
    c.target_x - (Camera.update^[n] c).x = (1 - SMOOTHING) ^ n * (c.target_x - c.x) ∧
    c.target_y - (Camera.update^[n] c).y = (1 - SMOOTHING) ^ n * (c.target_y - c.y) ∧
    c.target_zoom - (Camera.update^[n] c).zoom = (1 - SMOOTHING) ^ n * (c.target_zoom - c.zoom) := by
  induction n with
  | zero => simp
  | succ n ih =>
    obtain ⟨ihx, ihy, ihz⟩ := ih
    obtain ⟨htx, hty, htz⟩ := update_iterate_targets c n
    rw [Function.iterate_succ_apply']
    refine ⟨?_, ?_, ?_⟩
    · show c.target_x - ((Camera.update^[n] c).x +
        ((Camera.update^[n] c).target_x - (Camera.update^[n] c).x) * SMOOTHING) = _
      rw [htx, pow_succ]
      linear_combination (1 - SMOOTHING) * ihx
    · show c.target_y - ((Camera.update^[n] c).y +
        ((Camera.update^[n] c).target_y - (Camera.update^[n] c).y) * SMOOTHING) = _
      rw [hty, pow_succ]
      linear_combination (1 - SMOOTHING) * ihy
    · show c.target_zoom - ((Camera.update^[n] c).zoom +
        ((Camera.update^[n] c).target_zoom - (Camera.update^[n] c).zoom) * SMOOTHING) = _
      rw [htz, pow_succ]
      linear_combination (1 - SMOOTHING) * ihz

/-- An operation on the camera available to the renderer loop: either
`set_target(tx, ty, tz)` or `update()`. -/
inductive CamOp where
  | setTarget (tx ty tz : ℚ)
  | update

/-- Apply a sequence of camera operations, in order. -/
def applyCamOps (c : CameraState) : List CamOp → CameraState
  | [] => c
  | CamOp.setTarget tx ty tz :: ops => applyCamOps (Camera.set_target c tx ty tz) ops
  | CamOp.update :: ops => applyCamOps (Camera.update c) ops

/-- Full inductive invariant for the camera: current and target values stay in
the valid region. -/
def CamInv (w h : ℚ) (c : CameraState) : Prop :=
  c.screen_width = w ∧ c.screen_height = h ∧
  0 ≤ c.x ∧ c.x ≤ w ∧ 0 ≤ c.y ∧ c.y ≤ h ∧ 1 ≤ c.zoom ∧
  0 ≤ c.target_x ∧ c.target_x ≤ w ∧ 0 ≤ c.target_y ∧ c.target_y ≤ h ∧ 1 ≤ c.target_zoom

theorem camInv_init (w h : ℚ) (hw : 0 ≤ w) (hh : 0 ≤ h) : CamInv w h (Camera.init w h) := by
  refine ⟨rfl, rfl, ?_, ?_, ?_, ?_, le_refl 1, ?_, ?_, ?_, ?_, le_refl 1⟩ <;>
    simp [Camera.init] <;> linarith

theorem camInv_set_target (w h : ℚ) (c : CameraState) (tx ty tz : ℚ)
    (hw : 0 ≤ w) (hh : 0 ≤ h) (hc : CamInv w h c) :
    CamInv w h (Camera.set_target c tx ty tz) := by
  obtain ⟨hsw, hsh, h1, h2, h3, h4, h5, _, _, _, _, _⟩ := hc
  refine ⟨hsw, hsh, h1, h2, h3, h4, h5, ?_, ?_, ?_, ?_, ?_⟩ <;>
    simp [Camera.set_target, hsw, hsh] <;>
    first
    | exact hw
    | exact hh

theorem camInv_update (w h : ℚ) (c : CameraState) (hc : CamInv w h c) :
    CamInv w h (Camera.update c) := by
  obtain ⟨hsw, hsh, h1, h2, h3, h4, h5, h6, h7, h8, h9, h10⟩ := hc
  refine ⟨hsw, hsh, ?_, ?_, ?_, ?_, ?_, h6, h7, h8, h9, h10⟩ <;>
    simp only [Camera.update, SMOOTHING] <;> nlinarith

theorem camInv_applyCamOps (w h : ℚ) (hw : 0 ≤ w) (hh : 0 ≤ h) :
    ∀ (ops : List CamOp) (c : CameraState), CamInv w h c → CamInv w h (applyCamOps c ops)
  | [], c, hc => hc
  | CamOp.setTarget tx ty tz :: ops, c, hc =>
    camInv_applyCamOps w h hw hh ops _ (camInv_set_target w h c tx ty tz hw hh hc)
  | CamOp.update :: ops, c, hc =>
    camInv_applyCamOps w h hw hh ops _ (camInv_update w h c hc)

/-- Claim C10: for a camera constructed with positive screen dimensions, after
any finite sequence of `set_target` and `update` calls the state satisfies
0 ≤ x ≤ w, 0 ≤ y ≤ h and zoom ≥ 1. -/
theorem camera_state_stays_valid (w h : ℚ) (ops : List CamOp)
    (hw : 0 < w) (hh : 0 < h) :
    0 ≤ (applyCamOps (Camera.init w h) ops).x ∧
    (applyCamOps (Camera.init w h) ops).x ≤ w ∧
    0 ≤ (applyCamOps (Camera.init w h) ops).y ∧
    (applyCamOps (Camera.init w h) ops).y ≤ h ∧
    1 ≤ (applyCamOps (Camera.init w h) ops).zoom := by
  have hinv := camInv_applyCamOps w h (le_of_lt hw) (le_of_lt hh) ops
    (Camera.init w h) (camInv_init w h (le_of_lt hw) (le_of_lt hh))
  obtain ⟨_, _, h1, h2, h3, h4, h5, _, _, _, _, _⟩ := hinv
  exact ⟨h1, h2, h3, h4, h5⟩

/-- Witness for Claim C10 at a concrete screen size and operation sequence. -/
theorem camera_state_stays_valid_witness :
    0 ≤ (applyCamOps (Camera.init 1920 1080)
        [CamOp.setTarget 500 300 2, CamOp.update, CamOp.update]).x ∧
    (applyCamOps (Camera.init 1920 1080)
        [CamOp.setTarget 500 300 2, CamOp.update, CamOp.update]).x ≤ 1920 ∧
    0 ≤ (applyCamOps (Camera.init 1920 1080)
        [CamOp.setTarget 500 300 2, CamOp.update, CamOp.update]).y ∧
    (applyCamOps (Camera.init 1920 1080)
        [CamOp.setTarget 500 300 2, CamOp.update, CamOp.update]).y ≤ 1080 ∧
    1 ≤ (applyCamOps (Camera.init 1920 1080)
        [CamOp.setTarget 500 300 2, CamOp.update, CamOp.update]).zoom :=
  camera_state_stays_valid 1920 1080 [CamOp.setTarget 500 300 2, CamOp.update, CamOp.update]
    (by norm_num) (by norm_num)

theorem pyint_nonneg {q : ℚ} (h : 0 ≤ q) : 0 ≤ pyint q := by
  simp only [pyint, if_pos h]
  exact Int.floor_nonneg.mpr h

theorem pyint_le_of_le {q : ℚ} {n : ℤ} (h0 : 0 ≤ q) (h : q ≤ (n : ℚ)) : pyint q ≤ n := by
  simp only [pyint, if_pos h0]
  calc ⌊q⌋ ≤ ⌊(n : ℚ)⌋ := Int.floor_le_floor h
  _ = n := Int.floor_intCast n

theorem crop_w_nonneg (c : CameraState) (w : ℕ) (hz : 1 ≤ c.zoom) :
    0 ≤ Camera.crop_w c w := by
  have hzpos : (0 : ℚ) < c.zoom := lt_of_lt_of_le one_pos hz
  exact pyint_nonneg (div_nonneg (Nat.cast_nonneg w) (le_of_lt hzpos))

theorem crop_w_le (c : CameraState) (w : ℕ) (hz : 1 ≤ c.zoom) :
    Camera.crop_w c w ≤ (w : ℤ) := by
  have hzpos : (0 : ℚ) < c.zoom := lt_of_lt_of_le one_pos hz
  have hle : (w : ℚ) / c.zoom ≤ (w : ℚ) := by
    rw [div_le_iff hzpos]
    nlinarith [Nat.cast_nonneg (α := ℚ) w]
  exact pyint_le_of_le (div_nonneg (Nat.cast_nonneg w) (le_of_lt hzpos)) (by simpa using hle)

/-- Claim C4: for any frame size, any zoom ≥ 1 and any requested center, the
clamped crop window computed by `process_frame` lies entirely within the
frame: 0 ≤ crop_x, crop_x + crop_w ≤ w, and symmetrically in y. -/
theorem crop_window_within_frame (c : CameraState) (w h : ℕ) (hz : 1 ≤ c.zoom) :
    0 ≤ Camera.crop_x c w ∧ Camera.crop_x c w + Camera.crop_w c w ≤ (w : ℤ) ∧
    0 ≤ Camera.crop_y c h ∧ Camera.crop_y c h + Camera.crop_h c h ≤ (h : ℤ) := by
  have hwn := crop_w_nonneg c w hz
  have hwl := crop_w_le c w hz
  have hhn : 0 ≤ Camera.crop_h c h := crop_w_nonneg c h hz
  have hhl : Camera.crop_h c h ≤ (h : ℤ) := crop_w_le c h hz
  refine ⟨le_max_left 0 _, ?_, le_max_left 0 _, ?_⟩
  · have hx : Camera.crop_x c w ≤ (w : ℤ) - Camera.crop_w c w :=
      max_le (by omega) (min_le_right _ _)
    omega
  · have hy : Camera.crop_y c h ≤ (h : ℤ) - Camera.crop_h c h :=
      max_le (by omega) (min_le_right _ _)
    omega

/-- A concrete camera used to witness the crop-window bound: 1920×1080
screen, zoom 2, off-center position. -/
def cameraAt100x1000 : CameraState :=
  { screen_width := 1920, screen_height := 1080, x := 100, y := 1000,
    zoom := 2, target_x := 100, target_y := 1000, target_zoom := 2 }

/-- Witness for Claim C4: a concrete 1920×1080 frame, zoom 2, off-center
requested position. -/
theorem crop_window_within_frame_witness :
    0 ≤ Camera.crop_x cameraAt100x1000 1920 ∧
    Camera.crop_x cameraAt100x1000 1920 + Camera.crop_w cameraAt100x1000 1920 ≤ (1920 : ℤ) ∧
    0 ≤ Camera.crop_y cameraAt100x1000 1080 ∧
    Camera.crop_y cameraAt100x1000 1080 + Camera.crop_h cameraAt100x1000 1080 ≤ (1080 : ℤ) :=
  crop_window_within_frame cameraAt100x1000 1920 1080 (by norm_num [cameraAt100x1000])

/-- Claim C9: `process_frame` at zoom exactly 1.0 with the camera positioned
at the frame center returns the frame unchanged. -/
theorem process_frame_identity_at_unit_zoom (c : CameraState) (f : Frame)
    (hz : c.zoom = 1) (hx : c.x = (f.w : ℚ) / 2) (hy : c.y = (f.h : ℚ) / 2) :
    Camera.process_frame c f = f := by
  have hcw : Camera.crop_w c f.w = (f.w : ℤ) := by
    simp [Camera.crop_w, hz, pyint]
  have hch : Camera.crop_h c f.h = (f.h : ℤ) := by
    simp [Camera.crop_h, hz, pyint]
  have hcx : Camera.crop_x c f.w = 0 := by
    simp [Camera.crop_x, hcw, hx, pyint]
  have hcy : Camera.crop_y c f.h = 0 := by
    simp [Camera.crop_y, hch, hy, pyint]
  simp only [Camera.process_frame, hcw, hch, hcx, hcy, zero_add, min_self, sub_zero,
    Int.toNat_natCast, Int.toNat_zero]
  by_cases hzero : f.h * f.w = 0
  · simp [hzero]
  · simp only [hzero, if_false, Frame.resize]
    have hhpos : 0 < f.h := Nat.pos_of_ne_zero fun h => hzero (by simp [h])
    have hwpos : 0 < f.w := Nat.pos_of_ne_zero fun h => hzero (by simp [h])
    refine Frame.ext_px rfl rfl ?_
    funext i j
    simp [Nat.mul_div_cancel _ hhpos, Nat.mul_div_cancel _ hwpos]

/-- A concrete unit-zoom camera centered on a 4×2 frame. -/
def cameraCentered4x2 : CameraState :=
  { screen_width := 4, screen_height := 2, x := 2, y := 1,
    zoom := 1, target_x := 2, target_y := 1, target_zoom := 1 }

/-- A concrete 4×2 frame. -/
def frame4x2 : Frame := { h := 2, w := 4, px := fun i j => i + 2 * j }

/-- Witness for Claim C9: a concrete 4×2 frame processed by a unit-zoom,
centered camera comes back unchanged. -/
theorem process_frame_identity_at_unit_zoom_witness :
    Camera.process_frame cameraCentered4x2 frame4x2 = frame4x2 :=
  process_frame_identity_at_unit_zoom cameraCentered4x2 frame4x2
    (by norm_num [cameraCentered4x2]) (by norm_num [cameraCentered4x2, frame4x2])
    (by norm_num [cameraCentered4x2, frame4x2])

/-- An input event record as stored in the metadata file: fields
`time`, `type` ("move" / "click_press" / "click_release"), `x`, `y`,
`button` (recorder.py `on_event`). -/
structure InputEvent where
  time : ℚ
  type : String
  x : ℤ
  y : ℤ
  button : Option String

/-- The selection loop of `EditorApp.ai_suggest_zooms`: walk the metadata in
order, selecting each click_press event whose time is at least
`last_zoom_time + cooldown`, updating `last_zoom_time` on selection. -/
def selectClicksAux (cooldown : ℚ) : List InputEvent → ℚ → List ℚ
  | [], _ => []
  | e :: rest, last =>
    if e.type = "click_press" ∧ last + cooldown ≤ e.time then
      e.time :: selectClicksAux cooldown rest e.time
    else
      selectClicksAux cooldown rest last

/-- The `suggested_points` list computed by `ai_suggest_zooms`, starting from
`last_zoom_time = -cooldown`. -/
def suggested_points (metadata : List InputEvent) (cooldown : ℚ) : List ℚ :=
  selectClicksAux cooldown metadata (-cooldown)

/-- The `valid_points` list of `ai_suggest_zooms`: selected points strictly
below the clip duration are kept, points at or beyond it are discarded. -/
def validPoints (metadata : List InputEvent) (cooldown duration : ℚ) : List ℚ :=
  (suggested_points metadata cooldown).filter (fun t => t < duration)

/-- Model of `EditorApp.ai_suggest_zooms` from editor.py: select click times subject to
the cooldown, drop those beyond the clip duration, merge into the existing
zoom-point list as `sorted(list(set(zoom_points + valid_points)))`, and report
`len(new) - len(old)`.  When nothing valid is selected the method returns
early and the zoom points are unchanged. -/
def ai_suggest_zooms (zoom_points : List ℚ) (metadata : List InputEvent)
    (duration : ℚ) : List ℚ × ℕ :=
  let valid := validPoints metadata AI_CLICK_COOLDOWN duration
  if valid = [] then (zoom_points, 0)
  else
    let merged := List.insertionSort (fun a b => a ≤ b) (zoom_points ++ valid).dedup
    (merged, merged.length - zoom_points.length)

theorem selectClicksAux_subset_times (cooldown : ℚ) :
    ∀ (es : List InputEvent) (last : ℚ) (t : ℚ),
      t ∈ selectClicksAux cooldown es last → t ∈ es.map InputEvent.time
  | [], _, _, h => by simp [selectClicksAux] at h
  | e :: rest, last, t, h => by
    simp only [selectClicksAux] at h
    by_cases hc : e.type = "click_press" ∧ last + cooldown ≤ e.time
    · rw [if_pos hc] at h
      rcases List.mem_cons.mp h with h1 | h2
      · simp [h1]
      · simp only [List.map_cons, List.mem_cons]
        exact Or.inr (selectClicksAux_subset_times cooldown rest e.time t h2)
    · rw [if_neg hc] at h
      simp only [List.map_cons, List.mem_cons]
      exact Or.inr (selectClicksAux_subset_times cooldown rest last t h)

theorem selectClicksAux_ge (cooldown : ℚ) :
    ∀ (es : List InputEvent) (last : ℚ),
      List.Pairwise (fun a b => a.time ≤ b.time) es →
      ∀ t ∈ selectClicksAux cooldown es last, last + cooldown ≤ t
  | [], _, _, t, h => by simp [selectClicksAux] at h
  | e :: rest, last, hsorted, t, h => by
    obtain ⟨hhead, htail⟩ := List.pairwise_cons.mp hsorted
    simp only [selectClicksAux] at h
    by_cases hc : e.type = "click_press" ∧ last + cooldown ≤ e.time
    · rw [if_pos hc] at h
      rcases List.mem_cons.mp h with h1 | h2
      · exact h1 ▸ hc.2
      · have ht := selectClicksAux_subset_times cooldown rest e.time t h2
        obtain ⟨e', he', het⟩ := List.mem_map.mp ht
        exact le_trans hc.2 (het ▸ hhead e' he')
    · rw [if_neg hc] at h
      exact selectClicksAux_ge cooldown rest last htail t h

theorem selectClicksAux_pairwise (cooldown : ℚ) :
    ∀ (es : List InputEvent) (last : ℚ),
      List.Pairwise (fun a b => a.time ≤ b.time) es →
      List.Pairwise (fun a b : ℚ => a + cooldown ≤ b) (selectClicksAux cooldown es last)
  | [], _, _ => by simp [selectClicksAux]
  | e :: rest, last, hsorted => by
    obtain ⟨_, htail⟩ := List.pairwise_cons.mp hsorted
    simp only [selectClicksAux]
    by_cases hc : e.type = "click_press" ∧ last + cooldown ≤ e.time
    · rw [if_pos hc]
      exact List.pairwise_cons.mpr
        ⟨selectClicksAux_ge cooldown rest e.time htail,
         selectClicksAux_pairwise cooldown rest e.time htail⟩
    · rw [if_neg hc]
      exact selectClicksAux_pairwise cooldown rest last htail

/-- A click_press event at time `t` located at the origin (used in the
scenario of Claim C5). -/
def clickAt (t : ℚ) : InputEvent :=
  { time := t, type := "click_press", x := 0, y := 0, button := some "Button.left" }

/-- Claim C5: for a time-ordered click sequence the points selected by the
suggest loop are pairwise at least `cooldown` apart (so no two differ by less
than the cooldown); and the scenario with click presses at t = 0, 1, 1.2, 4
and cooldown 2.5 selects exactly [0, 4]. -/
theorem suggest_cooldown_spacing (metadata : List InputEvent) (cooldown : ℚ)
    (hsorted : List.Pairwise (fun a b => a.time ≤ b.time) metadata) :
    List.Pairwise (fun a b : ℚ => a + cooldown ≤ b) (suggested_points metadata cooldown) ∧
    suggested_points [clickAt 0, clickAt 1, clickAt (6/5), clickAt 4] AI_CLICK_COOLDOWN
      = [0, 4] := by
  constructor
  · exact selectClicksAux_pairwise cooldown metadata (-cooldown) hsorted
  · norm_num [suggested_points, selectClicksAux, clickAt, AI_CLICK_COOLDOWN, ZOOM_DURATION]

/-- Witness for Claim C5 at the scenario input itself. -/
theorem suggest_cooldown_spacing_witness :
    List.Pairwise (fun a b : ℚ => a + AI_CLICK_COOLDOWN ≤ b)
      (suggested_points [clickAt 0, clickAt 1, clickAt (6/5), clickAt 4] AI_CLICK_COOLDOWN) ∧
    suggested_points [clickAt 0, clickAt 1, clickAt (6/5), clickAt 4] AI_CLICK_COOLDOWN
      = [0, 4] :=
  suggest_cooldown_spacing [clickAt 0, clickAt 1, clickAt (6/5), clickAt 4]
    AI_CLICK_COOLDOWN (by norm_num [clickAt, List.pairwise_cons])

theorem mem_validPoints (metadata : List InputEvent) (cooldown duration t : ℚ) :
    t ∈ validPoints metadata cooldown duration ↔
      t ∈ suggested_points metadata cooldown ∧ t < duration := by
  simp [validPoints]

/-- Claim C6: `ai_suggest_zooms` discards selected points at or beyond the
clip duration, merges the remaining ones into the zoom-point list as a
deduplicated union that never removes existing points, and reports exactly
the number of distinct selected points not already present. -/
theorem suggest_merge_union_count (zoom_points : List ℚ) (metadata : List InputEvent)
    (duration : ℚ) (hnd : zoom_points.Nodup) :
    (∀ t, t ∈ (ai_suggest_zooms zoom_points metadata duration).fst ↔
      t ∈ zoom_points ∨
        (t ∈ suggested_points metadata AI_CLICK_COOLDOWN ∧ t < duration)) ∧
    (ai_suggest_zooms zoom_points metadata duration).snd =
      ((validPoints metadata AI_CLICK_COOLDOWN duration).toFinset \
        zoom_points.toFinset).card := by
  by_cases hempty : validPoints metadata AI_CLICK_COOLDOWN duration = []
  · constructor
    · intro t
      simp only [ai_suggest_zooms, hempty, if_pos rfl]
      have := mem_validPoints metadata AI_CLICK_COOLDOWN duration t
      rw [hempty] at this
      simp only [List.not_mem_nil, false_iff] at this
      simpa using fun h1 h2 => absurd ⟨h1, h2⟩ this
    · simp [ai_suggest_zooms, hempty]
  · have hkey : ∀ t, t ∈ (ai_suggest_zooms zoom_points metadata duration).fst ↔
        t ∈ zoom_points ∨ t ∈ validPoints metadata AI_CLICK_COOLDOWN duration := by
      intro t
      simp only [ai_suggest_zooms, if_neg hempty]
      rw [List.mem_insertionSort, List.mem_dedup, List.mem_append]
    constructor
    · intro t
      rw [hkey t, mem_validPoints]
    · simp only [ai_suggest_zooms, if_neg hempty]
      have hlen : (List.insertionSort (fun a b => a ≤ b)
          (zoom_points ++ validPoints metadata AI_CLICK_COOLDOWN duration).dedup).length =
          (zoom_points ++ validPoints metadata AI_CLICK_COOLDOWN duration).dedup.length :=
        (List.perm_insertionSort _ _).length_eq
      rw [hlen]
      have hcard : (zoom_points ++ validPoints metadata AI_CLICK_COOLDOWN duration).dedup.length =
          ((zoom_points ++ validPoints metadata AI_CLICK_COOLDOWN duration).toFinset).card :=
        (List.card_toFinset _).symm
      rw [hcard, List.toFinset_append]
      rw [← Finset.union_sdiff_self_eq_union,
        Finset.card_union_of_disjoint Finset.disjoint_sdiff,
        List.toFinset_card_of_nodup hnd]
      exact Nat.add_sub_cancel_left _ _

/-- Witness for Claim C6: two existing points, metadata with clicks at 0 and
4, duration 3 (the click at 4 is discarded, the click at 0 is new). -/
theorem suggest_merge_union_count_witness :
    (∀ t, t ∈ (ai_suggest_zooms [1, 2] [clickAt 0, clickAt 4] 3).fst ↔
      t ∈ [(1 : ℚ), 2] ∨
        (t ∈ suggested_points [clickAt 0, clickAt 4] AI_CLICK_COOLDOWN ∧ t < 3)) ∧
    (ai_suggest_zooms [1, 2] [clickAt 0, clickAt 4] 3).snd =
      ((validPoints [clickAt 0, clickAt 4] AI_CLICK_COOLDOWN 3).toFinset \
        ([1, 2] : List ℚ).toFinset).card :=
  suggest_merge_union_count [1, 2] [clickAt 0, clickAt 4] 3 (by norm_num)

/-- Model of `EditorApp.get_mouse_pos_at_time` from editor.py: scan the metadata list
in reverse, returning the coordinates of the first entry found that is a move
event with time ≤ t (on an empty metadata list the scan returns nothing). -/
def get_mouse_pos_at_time (metadata : List InputEvent) (t : ℚ) : Option (ℤ × ℤ) :=
  (metadata.reverse.find? (fun e => decide (e.time ≤ t) && (e.type == "move"))).map
    (fun e => (e.x, e.y))

/-- The in-zoom test of `EditorApp.render_video`: some zoom point `zt`
satisfies `zt ≤ t < zt + ZOOM_DURATION`. -/
def inZoom (zoom_points : List ℚ) (t : ℚ) : Bool :=
  zoom_points.any (fun zt => decide (zt ≤ t) && decide (t < zt + ZOOM_DURATION))

/-- The camera target chosen by `EditorApp.render_video` for the frame at
time t, before clamping by `set_target`: mouse position (or frame center) at
ZOOM_LEVEL inside a zoom interval, frame center at zoom 1.0 otherwise. -/
def renderTarget (zoom_points : List ℚ) (metadata : List InputEvent)
    (w h : ℚ) (t : ℚ) : ℚ × ℚ × ℚ :=
  if inZoom zoom_points t then
    match get_mouse_pos_at_time metadata t with
    | some p => ((p.1 : ℚ), (p.2 : ℚ), ZOOM_LEVEL)
    | none => (w / 2, h / 2, ZOOM_LEVEL)
  else (w / 2, h / 2, 1)

theorem inZoom_iff (zoom_points : List ℚ) (t : ℚ) :
    inZoom zoom_points t = true ↔ ∃ p ∈ zoom_points, p ≤ t ∧ t < p + ZOOM_DURATION := by
  simp [inZoom, List.any_eq_true]

theorem find_move_spec (t : ℚ) :
    ∀ (l : List InputEvent),
      List.Pairwise (fun a b => b.time ≤ a.time) l →
      ((∀ e ∈ l, ¬(e.time ≤ t ∧ e.type = "move")) ∧
        l.find? (fun e => decide (e.time ≤ t) && (e.type == "move")) = none) ∨
      ∃ e, l.find? (fun e => decide (e.time ≤ t) && (e.type == "move")) = some e ∧
        e ∈ l ∧ e.type = "move" ∧ e.time ≤ t ∧
        ∀ e' ∈ l, e'.type = "move" → e'.time ≤ t → e'.time ≤ e.time
  | [], _ => Or.inl ⟨by simp, rfl⟩
  | x :: xs, hsorted => by
    obtain ⟨hx, htail⟩ := List.pairwise_cons.mp hsorted
    by_cases hpx : x.time ≤ t ∧ x.type = "move"
    · refine Or.inr ⟨x, ?_, List.mem_cons_self x xs, hpx.2, hpx.1, ?_⟩
      · rw [List.find?_cons_of_pos]
        simp [hpx.1, hpx.2]
      · intro e' he' _ _
        rcases List.mem_cons.mp he' with h1 | h2
        · exact le_of_eq (congrArg InputEvent.time h1)
        · exact hx e' h2
    · have hfind : (x :: xs).find? (fun e => decide (e.time ≤ t) && (e.type == "move")) =
          xs.find? (fun e => decide (e.time ≤ t) && (e.type == "move")) := by
        rw [List.find?_cons_of_neg]
        simp only [Bool.and_eq_true, decide_eq_true_eq, beq_iff_eq]
        exact fun h => hpx ⟨h.1, h.2⟩
      rcases find_move_spec t xs htail with ⟨hall, hnone⟩ | ⟨e, hfe, hmem, hmv, hle, hmax⟩
      · refine Or.inl ⟨?_, by rw [hfind]; exact hnone⟩
        intro e he
        rcases List.mem_cons.mp he with h1 | h2
        · exact h1 ▸ hpx
        · exact hall e h2
      · refine Or.inr ⟨e, by rw [hfind]; exact hfe, List.mem_cons_of_mem x hmem, hmv, hle, ?_⟩
        intro e' he' hmv' hle'
        rcases List.mem_cons.mp he' with h1 | h2
        · exact absurd ⟨h1 ▸ hle', h1 ▸ hmv'⟩ hpx
        · exact hmax e' h2 hmv' hle'

/-- The scenario move event of Claim C8: a move at t = 9.8 located at
(500, 300). -/
def moveAt98 : InputEvent :=
  { time := 49/5, type := "move", x := 500, y := 300, button := none }

/-- Claim C8: at frame time t the renderer targets the most recent move
position at ZOOM_LEVEL when t is inside some zoom interval (frame center if
no move event precedes t), and the frame center at zoom 1.0 otherwise; in the
scenario with a zoom point at t = 10 and a move at 9.8 to (500, 300), the
frame at t = 10.1 targets (500, 300) at zoom 2 and the frame at t = 13
targets the center at zoom 1. -/
theorem render_target_selection (zoom_points : List ℚ) (metadata : List InputEvent)
    (w h t : ℚ) (hsorted : List.Pairwise (fun a b => a.time ≤ b.time) metadata) :
    ((¬ ∃ p ∈ zoom_points, p ≤ t ∧ t < p + ZOOM_DURATION) →
        renderTarget zoom_points metadata w h t = (w / 2, h / 2, 1)) ∧
    ((∃ p ∈ zoom_points, p ≤ t ∧ t < p + ZOOM_DURATION) →
        ((∀ e ∈ metadata, ¬(e.time ≤ t ∧ e.type = "move")) ∧
            renderTarget zoom_points metadata w h t = (w / 2, h / 2, ZOOM_LEVEL)) ∨
        (∃ e ∈ metadata, e.type = "move" ∧ e.time ≤ t ∧
            (∀ e' ∈ metadata, e'.type = "move" → e'.time ≤ t → e'.time ≤ e.time) ∧
            renderTarget zoom_points metadata w h t = ((e.x : ℚ), (e.y : ℚ), ZOOM_LEVEL))) ∧
    renderTarget [10] [moveAt98] 1920 1080 (101/10) = (500, 300, ZOOM_LEVEL) ∧
    renderTarget [10] [moveAt98] 1920 1080 13 = (960, 540, 1) := by
  have hrev : List.Pairwise (fun a b => b.time ≤ a.time) metadata.reverse := by
    rw [List.pairwise_reverse]
    exact hsorted
  refine ⟨?_, ?_, ?_, ?_⟩
  · intro hno
    have hz : inZoom zoom_points t = false := by
      rw [← Bool.not_eq_true, inZoom_iff]
      exact hno
    simp [renderTarget, hz]
  · intro hyes
    have hz : inZoom zoom_points t = true := (inZoom_iff zoom_points t).mpr hyes
    rcases find_move_spec t metadata.reverse hrev with ⟨hall, hnone⟩ | ⟨e, hfe, hmem, hmv, hle, hmax⟩
    · refine Or.inl ⟨fun e he => hall e (List.mem_reverse.mpr he), ?_⟩
      simp [renderTarget, hz, get_mouse_pos_at_time, hnone]
    · refine Or.inr ⟨e, List.mem_reverse.mp hmem, hmv, hle, ?_, ?_⟩
      · exact fun e' he' => hmax e' (List.mem_reverse.mpr he')
      · simp [renderTarget, hz, get_mouse_pos_at_time, hfe]
  · norm_num [renderTarget, inZoom, get_mouse_pos_at_time, moveAt98, ZOOM_DURATION,
      ZOOM_LEVEL, List.find?]
  · norm_num [renderTarget, inZoom, get_mouse_pos_at_time, moveAt98, ZOOM_DURATION,
      ZOOM_LEVEL, List.find?]

/-- Witness for Claim C8 at the scenario metadata (a single move event). -/
theorem render_target_selection_witness :
    ((¬ ∃ p ∈ [(10 : ℚ)], p ≤ (101/10 : ℚ) ∧ (101/10 : ℚ) < p + ZOOM_DURATION) →
        renderTarget [10] [moveAt98] 1920 1080 (101/10) = (1920 / 2, 1080 / 2, 1)) ∧
    ((∃ p ∈ [(10 : ℚ)], p ≤ (101/10 : ℚ) ∧ (101/10 : ℚ) < p + ZOOM_DURATION) →
        ((∀ e ∈ [moveAt98], ¬(e.time ≤ (101/10 : ℚ) ∧ e.type = "move")) ∧
            renderTarget [10] [moveAt98] 1920 1080 (101/10) = (1920 / 2, 1080 / 2, ZOOM_LEVEL)) ∨
        (∃ e ∈ [moveAt98], e.type = "move" ∧ e.time ≤ (101/10 : ℚ) ∧
            (∀ e' ∈ [moveAt98], e'.type = "move" → e'.time ≤ (101/10 : ℚ) →
              e'.time ≤ e.time) ∧
            renderTarget [10] [moveAt98] 1920 1080 (101/10) =
              ((e.x : ℚ), (e.y : ℚ), ZOOM_LEVEL))) ∧
    renderTarget [10] [moveAt98] 1920 1080 (101/10) = (500, 300, ZOOM_LEVEL) ∧
    renderTarget [10] [moveAt98] 1920 1080 13 = (960, 540, 1) :=
  render_target_selection [10] [moveAt98] 1920 1080 (101/10) (by simp)

/-- A mouse event appended to `self.mouse_events` by `on_event` in
recorder.py, with `time` in elapsed seconds since the session start. -/
structure LoggedEvent where
  time : ℚ
  type : String
  x : ℤ
  y : ℤ
  button : Option String

/-- Controller-level state of a `ScreenRecorder`: the recording and pause
flags, the stop event, the session start instant, the collected events, the
two resource handles, and the metadata file contents (`none` = never
written). -/
structure Recorder where
  is_recording : Bool
  is_paused : Bool
  stop_set : Bool
  start_time : ℚ
  mouse_events : List LoggedEvent
  camera : Option Unit
  video_writer : Option Unit
  metadata_file : Option (List LoggedEvent)

/-- A freshly constructed `ScreenRecorder` (`__init__`). -/
def Recorder.initial : Recorder :=
  { is_recording := false, is_paused := false, stop_set := false, start_time := 0,
    mouse_events := [], camera := none, video_writer := none, metadata_file := none }

/-- Model of `ScreenRecorder.start` at wall time `t`: `camOk` is whether
`dxcam.create` yields a camera, `writerOk` whether the video writer opens,
`spawnOk` whether thread startup succeeds.  Any failure runs
`_cleanup_resources` (both handles released) and leaves `is_recording`
false; failures before the state-reset block leave timing fields untouched,
a spawn failure happens after it. -/
def Recorder.start (r : Recorder) (t : ℚ) (camOk writerOk spawnOk : Bool) :
    Recorder × Bool :=
  if r.is_recording = true then (r, false)
  else if camOk = false then
    ({ r with camera := none, video_writer := none, is_recording := false }, false)
  else if writerOk = false then
    ({ r with camera := none, video_writer := none, is_recording := false }, false)
  else if spawnOk = false then
    ({ r with
        is_recording := false
        is_paused := false
        start_time := t
        mouse_events := []
        stop_set := false
        camera := none
        video_writer := none }, false)
  else
    ({ r with
        is_recording := true
        is_paused := false
        start_time := t
        mouse_events := []
        stop_set := false
        camera := some ()
        video_writer := some () }, true)

/-- Model of `ScreenRecorder.pause`. -/
def Recorder.pause (r : Recorder) : Recorder × Bool :=
  if r.is_recording = true ∧ r.is_paused = false then ({ r with is_paused := true }, true)
  else (r, false)

/-- Model of `ScreenRecorder.resume`. -/
def Recorder.resume (r : Recorder) : Recorder × Bool :=
  if r.is_recording = true ∧ r.is_paused = true then ({ r with is_paused := false }, true)
  else (r, false)

/-- Model of `ScreenRecorder.stop`: fails if not recording; otherwise signals the stop
event, unpauses, joins workers (`joinOk` only changes a logged warning),
unconditionally releases the video writer then the camera, attempts the
metadata write (`persistOk`; a failure is caught and only printed), resets
the flags and event list, and returns True. -/
def Recorder.stop (r : Recorder) (persistOk joinOk : Bool) : Recorder × Bool :=
  if r.is_recording = false then (r, false)
  else
    ({ r with
        stop_set := true
        is_paused := false
        video_writer := none
        camera := none
        metadata_file := if persistOk = true then some r.mouse_events else r.metadata_file
        is_recording := false
        mouse_events := [] }, true)

/-- The `on_event` callback in `_mouse_listener_thread`: append the event
(timestamped with elapsed wall time since the session start) only while
recording, not paused, and not stopping. -/
def Recorder.on_event (r : Recorder) (t : ℚ) (ty : String) (x y : ℤ)
    (button : Option String) : Recorder :=
  if r.is_recording = true ∧ r.is_paused = false ∧ r.stop_set = false then
    { r with mouse_events := r.mouse_events ++
        [{ time := t - r.start_time, type := ty, x := x, y := y, button := button }] }
  else r

/-- Handle invariant of Claim C2: each resource handle is held exactly when
the session is not Idle. -/
def HandleInv (r : Recorder) : Prop :=
  r.camera.isSome = r.is_recording ∧ r.video_writer.isSome = r.is_recording

/-- A session in the Recording state with both handles held. -/
def recordingSession : Recorder :=
  { is_recording := true, is_paused := false, stop_set := false, start_time := 0,
    mouse_events := [], camera := some (), video_writer := some (),
    metadata_file := none }

/-- Counterexample to Claim C1 as stated: stopping `recordingSession` with a
failing metadata write still returns success, so the returned result is not
"success iff persistence succeeded" (here persistence failed, encoded as
`false = true` on the right of the claimed equivalence). -/
theorem stop_success_not_iff_persistence :
    ¬ (((Recorder.stop recordingSession false true).snd = true) ↔ (false = true)) := by
  intro h
  have hres : (Recorder.stop recordingSession false true).snd = true := by
    simp [Recorder.stop, recordingSession]
  exact Bool.false_ne_true (h.mp hres)

/-- Claim C1 amended: `stop()` invoked from Recording or Paused always
completes the reset to Idle (flags cleared, both handles released) and
always returns success, regardless of the persistence outcome; a successful
write persists the event log, a failed write leaves the metadata file
untouched and is only logged. -/
theorem stop_resets_and_always_reports_success (r : Recorder) (persistOk joinOk : Bool)
    (hrec : r.is_recording = true) :
    (Recorder.stop r persistOk joinOk).snd = true ∧
    (Recorder.stop r persistOk joinOk).fst.is_recording = false ∧
    (Recorder.stop r persistOk joinOk).fst.is_paused = false ∧
    (Recorder.stop r persistOk joinOk).fst.camera = none ∧
    (Recorder.stop r persistOk joinOk).fst.video_writer = none ∧
    (persistOk = true →
      (Recorder.stop r persistOk joinOk).fst.metadata_file = some r.mouse_events) ∧
    (persistOk = false →
      (Recorder.stop r persistOk joinOk).fst.metadata_file = r.metadata_file) := by
  simp only [Recorder.stop, hrec]
  cases persistOk <;> simp

/-- Witness for the amended Claim C1: stopping a live session with a failing
persistence step. -/
theorem stop_resets_and_always_reports_success_witness :
    (Recorder.stop recordingSession false true).snd = true ∧
    (Recorder.stop recordingSession false true).fst.is_recording = false ∧
    (Recorder.stop recordingSession false true).fst.is_paused = false ∧
    (Recorder.stop recordingSession false true).fst.camera = none ∧
    (Recorder.stop recordingSession false true).fst.video_writer = none ∧
    ((false : Bool) = true →
      (Recorder.stop recordingSession false true).fst.metadata_file =
        some recordingSession.mouse_events) ∧
    ((false : Bool) = false →
      (Recorder.stop recordingSession false true).fst.metadata_file =
        recordingSession.metadata_file) :=
  stop_resets_and_always_reports_success recordingSession false true rfl

/-- Claim C2: all four session operations preserve the handles-iff-not-Idle
invariant on every exit path; a start that fails from Idle leaves Idle with
both handles released, and a stop from a live session leaves both handles
released whatever the join and persistence outcomes. -/
theorem session_ops_preserve_handle_invariant (r : Recorder) (t : ℚ)
    (camOk writerOk spawnOk persistOk joinOk : Bool) (hinv : HandleInv r) :
    HandleInv (Recorder.start r t camOk writerOk spawnOk).fst ∧
    HandleInv (Recorder.pause r).fst ∧
    HandleInv (Recorder.resume r).fst ∧
    HandleInv (Recorder.stop r persistOk joinOk).fst ∧
    (r.is_recording = false → (Recorder.start r t camOk writerOk spawnOk).snd = false →
      (Recorder.start r t camOk writerOk spawnOk).fst.camera = none ∧
      (Recorder.start r t camOk writerOk spawnOk).fst.video_writer = none ∧
      (Recorder.start r t camOk writerOk spawnOk).fst.is_recording = false) ∧
    (r.is_recording = true →
      (Recorder.stop r persistOk joinOk).fst.camera = none ∧
      (Recorder.stop r persistOk joinOk).fst.video_writer = none) := by
  obtain ⟨hc, hv⟩ := hinv
  refine ⟨?_, ?_, ?_, ?_, ?_, ?_⟩
  · cases hrec : r.is_recording <;>
      cases camOk <;> cases writerOk <;> cases spawnOk <;>
      simp_all [Recorder.start, HandleInv]
  · simp only [Recorder.pause, HandleInv]
    split <;> simp_all
  · simp only [Recorder.resume, HandleInv]
    split <;> simp_all
  · cases hrec : r.is_recording <;> simp_all [Recorder.stop, HandleInv]
  · intro hidle _
    cases camOk <;> cases writerOk <;> cases spawnOk <;>
      simp_all [Recorder.start]
  · intro hrec
    simp [Recorder.stop, hrec]

/-- Witness for Claim C2: the invariant holds for a fresh recorder, so the
theorem applies to it. -/
theorem session_ops_preserve_handle_invariant_witness :
    HandleInv (Recorder.start Recorder.initial 0 true false true).fst ∧
    HandleInv (Recorder.pause Recorder.initial).fst ∧
    HandleInv (Recorder.resume Recorder.initial).fst ∧
    HandleInv (Recorder.stop Recorder.initial true true).fst ∧
    (Recorder.initial.is_recording = false →
      (Recorder.start Recorder.initial 0 true false true).snd = false →
      (Recorder.start Recorder.initial 0 true false true).fst.camera = none ∧
      (Recorder.start Recorder.initial 0 true false true).fst.video_writer = none ∧
      (Recorder.start Recorder.initial 0 true false true).fst.is_recording = false) ∧
    (Recorder.initial.is_recording = true →
      (Recorder.stop Recorder.initial true true).fst.camera = none ∧
      (Recorder.stop Recorder.initial true true).fst.video_writer = none) :=
  session_ops_preserve_handle_invariant Recorder.initial 0 true false true true true
    ⟨rfl, rfl⟩

/-- An action applied to the recorder in wall-clock order: a controller call
or an asynchronous input-listener callback. -/
inductive RecAction where
  | start (t : ℚ) (camOk writerOk spawnOk : Bool)
  | pause
  | resume
  | stop (persistOk joinOk : Bool)
  | input (t : ℚ) (ty : String) (x y : ℤ) (button : Option String)

/-- One step of the recorder under an action (operation results discarded). -/
def recStep (r : Recorder) : RecAction → Recorder
  | RecAction.start t c w s => (Recorder.start r t c w s).fst
  | RecAction.pause => (Recorder.pause r).fst
  | RecAction.resume => (Recorder.resume r).fst
  | RecAction.stop p j => (Recorder.stop r p j).fst
  | RecAction.input t ty x y b => Recorder.on_event r t ty x y b

/-- Run a list of actions from a state. -/
def recRun (r : Recorder) (as : List RecAction) : Recorder := as.foldl recStep r

/-- Input-listener arrivals as actions, each carrying its wall-clock arrival
time in the `time` field. -/
def inputActions (es : List InputEvent) : List RecAction :=
  es.map (fun e => RecAction.input e.time e.type e.x e.y e.button)

/-- The event record logged by `on_event` for an input arriving at wall time
`e.time` in a session started at `t0`. -/
def loggedAt (t0 : ℚ) (e : InputEvent) : LoggedEvent :=
  { time := e.time - t0, type := e.type, x := e.x, y := e.y, button := e.button }

/-- A full recording run containing one pause interval: start at `t0`, the
arrivals `es1`, pause, the arrivals `esP` (during the pause), resume, the
arrivals `es2`, stop with successful persistence. -/
def pauseTrace (t0 : ℚ) (es1 esP es2 : List InputEvent) : List RecAction :=
  RecAction.start t0 true true true ::
    (inputActions es1 ++ RecAction.pause :: (inputActions esP ++ RecAction.resume ::
      (inputActions es2 ++ [RecAction.stop true true])))

theorem recRun_inputs_active :
    ∀ (es : List InputEvent) (r : Recorder),
      r.is_recording = true → r.is_paused = false → r.stop_set = false →
      recRun r (inputActions es) =
        { r with mouse_events := r.mouse_events ++ es.map (loggedAt r.start_time) }
  | [], r, _, _, _ => by simp [recRun, inputActions]
  | e :: rest, r, hrec, hp, hs => by
    have hstep : recStep r (RecAction.input e.time e.type e.x e.y e.button) =
        { r with mouse_events := r.mouse_events ++ [loggedAt r.start_time e] } := by
      simp [recStep, Recorder.on_event, hrec, hp, hs, loggedAt]
    have ih := recRun_inputs_active rest
      { r with mouse_events := r.mouse_events ++ [loggedAt r.start_time e] } hrec hp hs
    simp only [inputActions, List.map_cons, recRun, List.foldl_cons, hstep]
    rw [show (rest.map fun e => RecAction.input e.time e.type e.x e.y e.button) =
      inputActions rest from rfl]
    rw [show List.foldl recStep
      { r with mouse_events := r.mouse_events ++ [loggedAt r.start_time e] }
      (inputActions rest) = recRun
      { r with mouse_events := r.mouse_events ++ [loggedAt r.start_time e] }
      (inputActions rest) from rfl]
    rw [ih]
    simp [List.append_assoc]

theorem recRun_inputs_paused :
    ∀ (es : List InputEvent) (r : Recorder), r.is_paused = true →
      recRun r (inputActions es) = r
  | [], r, _ => rfl
  | e :: rest, r, hp => by
    have hstep : recStep r (RecAction.input e.time e.type e.x e.y e.button) = r := by
      simp [recStep, Recorder.on_event, hp]
    simp only [inputActions, List.map_cons, recRun, List.foldl_cons, hstep]
    exact recRun_inputs_paused rest r hp

theorem recRun_append (r : Recorder) (l1 l2 : List RecAction) :
    recRun r (l1 ++ l2) = recRun (recRun r l1) l2 := by
  simp [recRun, List.foldl_append]

theorem recRun_cons (r : Recorder) (a : RecAction) (l : List RecAction) :
    recRun r (a :: l) = recRun (recStep r a) l := rfl

theorem recStep_pause_live (r : Recorder) (hrec : r.is_recording = true)
    (hp : r.is_paused = false) :
    recStep r RecAction.pause = { r with is_paused := true } := by
  simp [recStep, Recorder.pause, hrec, hp]

theorem recStep_resume_live (r : Recorder) (hrec : r.is_recording = true)
    (hp : r.is_paused = true) :
    recStep r RecAction.resume = { r with is_paused := false } := by
  simp [recStep, Recorder.resume, hrec, hp]

theorem recStep_stop_metadata (r : Recorder) (hrec : r.is_recording = true) :
    (recStep r (RecAction.stop true true)).metadata_file = some r.mouse_events := by
  simp [recStep, Recorder.stop, hrec]

theorem recRun_segment_metadata (r : Recorder) (es1 esP es2 : List InputEvent)
    (hrec : r.is_recording = true) (hp : r.is_paused = false) (hs : r.stop_set = false) :
    (recRun r (inputActions es1 ++ RecAction.pause :: (inputActions esP ++
        RecAction.resume :: (inputActions es2 ++ [RecAction.stop true true])))).metadata_file
      = some (r.mouse_events ++ es1.map (loggedAt r.start_time) ++
          es2.map (loggedAt r.start_time)) := by
  have hnil : ∀ x : Recorder, recRun x [] = x := fun _ => rfl
  simp only [recRun_append, recRun_cons, recRun_inputs_active, recRun_inputs_paused,
    recStep_pause_live, recStep_resume_live, recStep_stop_metadata, hnil,
    hrec, hp, hs, List.append_assoc]

/-- Claim C7: in a run that records `es1`, pauses over `[tp, tr)` while `esP`
arrives, resumes, records `es2`, and stops, the persisted event log is
exactly the logged forms of `es1 ++ es2` (paused arrivals are dropped, not
time-shifted); no persisted timestamp lies inside the paused interval, and
the persisted timestamps are non-decreasing in elapsed session time. -/
theorem paused_interval_events_dropped (t0 tp tr : ℚ) (es1 esP es2 : List InputEvent)
    (h1 : ∀ e ∈ es1, e.time < tp) (h2 : ∀ e ∈ es2, tr ≤ e.time)
    (hs1 : List.Pairwise (fun a b => a.time ≤ b.time) es1)
    (hs2 : List.Pairwise (fun a b => a.time ≤ b.time) es2)
    (htptr : tp ≤ tr) :
    (recRun Recorder.initial (pauseTrace t0 es1 esP es2)).metadata_file =
      some ((es1 ++ es2).map (loggedAt t0)) ∧
    (∀ ev ∈ (es1 ++ es2).map (loggedAt t0), ev.time < tp - t0 ∨ tr - t0 ≤ ev.time) ∧
    List.Pairwise (fun a b : LoggedEvent => a.time ≤ b.time)
      ((es1 ++ es2).map (loggedAt t0)) := by
  refine ⟨?_, ?_, ?_⟩
  · rw [pauseTrace, recRun_cons,
      recRun_segment_metadata _ es1 esP es2 rfl rfl rfl]
    simp [recStep, Recorder.start, Recorder.initial, List.map_append]
  · intro ev hev
    obtain ⟨e, he, rfl⟩ := List.mem_map.mp hev
    rcases List.mem_append.mp he with h | h
    · exact Or.inl (by have := h1 e h; simp [loggedAt]; linarith)
    · exact Or.inr (by have := h2 e h; simp [loggedAt]; linarith)
  · rw [List.pairwise_map]
    refine List.pairwise_append.mpr ⟨?_, ?_, ?_⟩
    · exact hs1.imp (by intro a b hab; simp [loggedAt]; linarith)
    · exact hs2.imp (by intro a b hab; simp [loggedAt]; linarith)
    · intro a ha b hb
      have h1a := h1 a ha
      have h2b := h2 b hb
      simp only [loggedAt]
      linarith

/-- A move input arriving at wall time `t`, used in the Claim C7 witness. -/
def moveEv (t : ℚ) : InputEvent :=
  { time := t, type := "move", x := 10, y := 20, button := none }

/-- Witness for Claim C7: session started at 0, one event at 1, pause over
[2, 5) with an event at 3, resume, one event at 6, stop. -/
theorem paused_interval_events_dropped_witness :
    (recRun Recorder.initial (pauseTrace 0 [moveEv 1] [moveEv 3] [moveEv 6])).metadata_file =
      some (([moveEv 1] ++ [moveEv 6]).map (loggedAt 0)) ∧
    (∀ ev ∈ ([moveEv 1] ++ [moveEv 6]).map (loggedAt 0),
      ev.time < 2 - 0 ∨ 5 - 0 ≤ ev.time) ∧
    List.Pairwise (fun a b : LoggedEvent => a.time ≤ b.time)
      (([moveEv 1] ++ [moveEv 6]).map (loggedAt 0)) :=
  paused_interval_events_dropped 0 2 5 [moveEv 1] [moveEv 3] [moveEv 6]
    (by norm_num [moveEv]) (by norm_num [moveEv]) (by simp) (by simp) (by norm_num)

end Zoomsi
